import Mathlib

/-!
Verification of the `linear-regression-crop-yield-analysis` data-processing
core against its natural-language specification.

The two source modules,
`src/data_processing/field_data_processor.py` and
`src/data_processing/weather_data_processor.py`, are shallowly embedded
below.  A pandas `DataFrame` is modelled as an ordered list of column
names together with rows of positionally aligned cell values; numeric
cells (Python ints and floats alike) are modelled as rationals, and
pandas' `NaN` / Python's `None` as an explicit `null` value.  Fallible
pandas operations (`KeyError`, `IndexError`, …) return `Option`;
exceptions raised inside `extract_measurement` are an `Except` error.
The ingestion collaborators (database engine, SQL query, web CSV fetch)
are out of scope per spec §1 and appear as parameters supplying the
fetched tables; the regex engine and Python's `float()` conversion are
likewise modelled as abstract collaborator functions (a matcher returns
the capture-group list of a successful search, or `none`).  Logging is
declared control-flow-insignificant by spec §6; the log lines that the
specification's error-handling design makes observable (the "not loaded"
warnings) are modelled explicitly, the remaining info/debug lines of the
loaded paths are kept where convenient and otherwise omitted.
-/

/-- A cell of a table: a string, a number (Python int and float are both
modelled as `ℚ`), or null (`None` / `NaN`). -/
inductive Value where
  | str : String → Value
  | num : ℚ → Value
  | null : Value
deriving DecidableEq, Repr

/-- A pandas `DataFrame`: ordered column labels and rows of cells aligned
positionally with the labels. -/
structure DataFrame where
  cols : List String
  rows : List (List Value)
deriving DecidableEq, Repr

/-- Index of the first column with the given label (`None` when absent). -/
def colIdx? : List String → String → Option Nat
  | [], _ => none
  | c' :: cs, c => if c' = c then some 0 else (colIdx? cs c).map (· + 1)

/-- The values stored under the first column labelled `c`, row by row
(`df[c]` as a list); `none` when no column has that label. -/
def getColVals (df : DataFrame) (c : String) : Option (List Value) :=
  (colIdx? df.cols c).map (fun i => df.rows.map (fun row => row.getD i Value.null))

/-- Embeds the loop `while temp_name in self.df.columns: temp_name += "_"`
of `rename_columns`.  The loop always terminates because each retry
lengthens the candidate, so `cols.length + 1` fuel (supplied by `tempFor`)
is enough; `findFresh_not_mem` below proves the result is fresh. -/
def findFresh (cols : List String) : String → Nat → String
  | s, 0 => s
  | s, fuel + 1 => if s ∈ cols then findFresh cols (s ++ "_") fuel else s

/-- The temporary column name chosen by `rename_columns` to avoid a
naming conflict, starting from the reserved base name of the source. -/
def tempFor (cols : List String) : String :=
  findFresh cols "__temp_name_for_swap__" (cols.length + 1)

/-- A Python dict literal `{k1: v1, k2: v2}` as an association list:
a repeated key keeps only the later binding. -/
def dict2 (k1 v1 k2 v2 : String) : List (String × String) :=
  if k2 = k1 then [(k1, v2)] else [(k1, v1), (k2, v2)]

/-- `df.rename(columns=m)`: every column label is sent through the
mapping (labels not in the mapping are unchanged); cell values and row
order are untouched. -/
def renameColMap (m : List (String × String)) (df : DataFrame) : DataFrame :=
  ⟨df.cols.map (fun c => (List.lookup c m).getD c), df.rows⟩

/-- `FieldDataProcessor.rename_columns`: reads the first key and the
first value of the configured `columns_to_rename` dict (an empty dict is
an `IndexError`, modelled as `none`), picks a fresh temporary name, and
performs the swap by two successive renames. -/
def rename_columns (columns_to_rename : List (String × String))
    (df : DataFrame) : Option DataFrame :=
  match columns_to_rename with
  | [] => none
  | (column1, column2) :: _ =>
    let temp := tempFor df.cols
    let df1 := renameColMap (dict2 column1 temp column2 column1) df
    some (renameColMap [(temp, column2)] df1)

/-- The transposition of the two labels `A` and `B` on column names. -/
def swapName (A B c : String) : String :=
  if c = A then B else if c = B then A else c

theorem length_filter_lt_of_exists {l : List α} {p q : α → Bool}
    (hpq : ∀ c, q c = true → p c = true) {s : α}
    (hs : s ∈ l) (hp : p s = true) (hq : q s = false) :
    (l.filter q).length < (l.filter p).length := by
  induction l with
  | nil => cases hs
  | cons x xs ih =>
    have hsub : (xs.filter q).length ≤ (xs.filter p).length :=
      (List.monotone_filter_right xs hpq).length_le
    rcases List.mem_cons.mp hs with rfl | hmem
    · simp only [List.filter_cons, hp, hq, if_pos, Bool.false_eq_true,
        if_false, List.length_cons]
      omega
    · simp only [List.filter_cons]
      by_cases hqx : q x = true
      · have hpx := hpq x hqx
        simp only [hqx, hpx, if_pos, List.length_cons]
        exact Nat.succ_lt_succ (ih hmem)
      · simp only [hqx, Bool.false_eq_true, if_false]
        by_cases hpx : p x = true
        · simp only [hpx, if_pos, List.length_cons]
          exact (ih hmem).trans (Nat.lt_succ_self _)
        · simp only [hpx, Bool.false_eq_true, if_false]
          exact ih hmem

theorem findFresh_not_mem (cols : List String) :
    ∀ (fuel : Nat) (s : String),
      (cols.filter (fun c => s.length ≤ c.length)).length < fuel →
      findFresh cols s fuel ∉ cols := by
  intro fuel
  induction fuel with
  | zero => intro s h; omega
  | succ n ih =>
    intro s h
    by_cases hs : s ∈ cols
    · rw [findFresh, if_pos hs]
      apply ih
      have hone : ("_" : String).length = 1 := rfl
      have hlen : (s ++ "_").length = s.length + 1 := by
        rw [String.length_append, hone]
      have hlt : ((cols.filter (fun c => (s ++ "_").length ≤ c.length)).length <
          (cols.filter (fun c => s.length ≤ c.length)).length) := by
        refine length_filter_lt_of_exists ?_ hs ?_ ?_
        · intro c hc
          simp only [decide_eq_true_eq, hlen] at hc ⊢
          omega
        · simp
        · simp only [hlen, decide_eq_false_iff_not]
          omega
      omega
    · rw [findFresh, if_neg hs]
      exact hs

theorem tempFor_not_mem (cols : List String) : tempFor cols ∉ cols := by
  apply findFresh_not_mem
  have h := List.length_filter_le
    (fun c => decide (("__temp_name_for_swap__" : String).length ≤ c.length)) cols
  omega

theorem swapName_left (A B : String) : swapName A B A = B := by
  simp [swapName]

theorem swapName_right (A B : String) : swapName A B B = A := by
  unfold swapName
  split_ifs with h1 h2
  · exact h1
  · rfl
  · exact absurd rfl h2

theorem swapName_other {A B c : String} (h1 : c ≠ A) (h2 : c ≠ B) :
    swapName A B c = c := by
  simp [swapName, h1, h2]

theorem swapName_swapName (A B c : String) :
    swapName A B (swapName A B c) = c := by
  unfold swapName
  split_ifs <;> simp_all

theorem colIdx?_map_invol (f : String → String) (hf : ∀ x, f (f x) = x)
    (l : List String) (c : String) :
    colIdx? (l.map f) c = colIdx? l (f c) := by
  induction l with
  | nil => rfl
  | cons x xs ih =>
    simp only [List.map_cons, colIdx?, ih]
    by_cases h : x = f c
    · rw [if_pos, if_pos h]
      rw [h, hf]
    · rw [if_neg, if_neg h]
      intro hfx
      exact h (by rw [← hfx, hf])

theorem getColVals_map_swap (A B c : String) (df : DataFrame) :
    getColVals ⟨df.cols.map (swapName A B), df.rows⟩ c
      = getColVals df (swapName A B c) := by
  simp only [getColVals]
  rw [colIdx?_map_invol (swapName A B) (swapName_swapName A B)]

theorem lookup_cons_self {v : String} (k : String) (l : List (String × String)) :
    List.lookup k ((k, v) :: l) = some v := by
  simp [List.lookup]

theorem lookup_cons_ne {a k : String} (h : a ≠ k) (v : String)
    (l : List (String × String)) :
    List.lookup a ((k, v) :: l) = List.lookup a l := by
  simp [List.lookup, beq_eq_false_iff_ne.mpr h]

theorem lookup_nil_str (a : String) :
    List.lookup a ([] : List (String × String)) = none := rfl

theorem swap_lookup_step (A B temp c : String)
    (htA : temp ≠ A) (htB : temp ≠ B) (htc : temp ≠ c) :
    (List.lookup ((List.lookup c (dict2 A temp B A)).getD c) [(temp, B)]).getD
      ((List.lookup c (dict2 A temp B A)).getD c) = swapName A B c := by
  by_cases hBA : B = A
  · subst hBA
    have hd : dict2 B temp B B = [(B, B)] := by simp [dict2]
    rw [hd]
    by_cases hcB : c = B
    · subst hcB
      rw [lookup_cons_self]
      simp only [Option.getD_some]
      rw [lookup_cons_ne (Ne.symm htc), lookup_nil_str]
      simp [swapName]
    · rw [lookup_cons_ne hcB, lookup_nil_str]
      simp only [Option.getD_none]
      rw [lookup_cons_ne (Ne.symm htc), lookup_nil_str]
      simp [swapName, hcB]
  · have hd : dict2 A temp B A = [(A, temp), (B, A)] := by simp [dict2, hBA]
    rw [hd]
    by_cases hcA : c = A
    · subst hcA
      rw [lookup_cons_self]
      simp only [Option.getD_some]
      rw [lookup_cons_self]
      simp only [Option.getD_some]
      rw [swapName_left]
    · rw [lookup_cons_ne hcA]
      by_cases hcB : c = B
      · subst hcB
        rw [lookup_cons_self]
        simp only [Option.getD_some]
        rw [lookup_cons_ne (Ne.symm htA), lookup_nil_str]
        simp only [Option.getD_none]
        rw [swapName_right]
      · rw [lookup_cons_ne hcB, lookup_nil_str]
        simp only [Option.getD_none]
        rw [lookup_cons_ne (Ne.symm htc), lookup_nil_str]
        simp only [Option.getD_none]
        rw [swapName_other hcA hcB]

theorem rename_columns_eq_swap (A B : String) (rest : List (String × String))
    (df : DataFrame) (hA : A ∈ df.cols) (hB : B ∈ df.cols) :
    rename_columns ((A, B) :: rest) df
      = some ⟨df.cols.map (swapName A B), df.rows⟩ := by
  have ht := tempFor_not_mem df.cols
  have htA : tempFor df.cols ≠ A := fun h => ht (h ▸ hA)
  have htB : tempFor df.cols ≠ B := fun h => ht (h ▸ hB)
  simp only [rename_columns, renameColMap, List.map_map]
  congr 2
  apply List.map_congr_left
  intro c hc
  exact swap_lookup_step A B (tempFor df.cols) c htA htB (fun h => ht (h ▸ hc))

/-- C1: for every table whose columns include the configured names `A`
(first key) and `B` (first value of `columns_to_rename`),
`rename_columns` succeeds and exchanges the two names: cell values and
row order are untouched, the values previously under `A` are under `B`
and vice versa, every other column is unchanged, and a second
application returns the original table. -/
theorem rename_columns_swap_involution (A B : String)
    (rest : List (String × String)) (df : DataFrame)
    (hA : A ∈ df.cols) (hB : B ∈ df.cols) :
    ∃ df₁, rename_columns ((A, B) :: rest) df = some df₁ ∧
      df₁.rows = df.rows ∧
      getColVals df₁ B = getColVals df A ∧
      getColVals df₁ A = getColVals df B ∧
      (∀ c, c ≠ A → c ≠ B → getColVals df₁ c = getColVals df c) ∧
      rename_columns ((A, B) :: rest) df₁ = some df := by
  refine ⟨⟨df.cols.map (swapName A B), df.rows⟩,
    rename_columns_eq_swap A B rest df hA hB, rfl, ?_, ?_, ?_, ?_⟩
  · rw [getColVals_map_swap, swapName_right]
  · rw [getColVals_map_swap, swapName_left]
  · intro c h1 h2
    rw [getColVals_map_swap, swapName_other h1 h2]
  · have hA1 : A ∈ df.cols.map (swapName A B) :=
      List.mem_map.mpr ⟨B, hB, swapName_right A B⟩
    have hB1 : B ∈ df.cols.map (swapName A B) :=
      List.mem_map.mpr ⟨A, hA, swapName_left A B⟩
    have h2 := rename_columns_eq_swap A B rest
      ⟨df.cols.map (swapName A B), df.rows⟩ hA1 hB1
    rw [h2]
    have hmm : (df.cols.map (swapName A B)).map (swapName A B) = df.cols := by
      rw [List.map_map]
      have hid : ∀ c ∈ df.cols, (swapName A B ∘ swapName A B) c = id c :=
        fun c _ => swapName_swapName A B c
      rw [List.map_congr_left hid, List.map_id]
    cases df
    simp_all

/-- Closed instance of C1: swapping the two columns of a concrete
two-column table, with both hypotheses discharged by evaluation. -/
theorem rename_columns_swap_involution_witness :
    ∃ df₁, rename_columns [("x", "y")]
        ⟨["x", "y"], [[Value.num 1, Value.str "a"]]⟩ = some df₁ ∧
      df₁.rows = [[Value.num 1, Value.str "a"]] ∧
      getColVals df₁ "y"
        = getColVals ⟨["x", "y"], [[Value.num 1, Value.str "a"]]⟩ "x" ∧
      getColVals df₁ "x"
        = getColVals ⟨["x", "y"], [[Value.num 1, Value.str "a"]]⟩ "y" ∧
      (∀ c, c ≠ "x" → c ≠ "y" →
        getColVals df₁ c
          = getColVals ⟨["x", "y"], [[Value.num 1, Value.str "a"]]⟩ c) ∧
      rename_columns [("x", "y")] df₁
        = some ⟨["x", "y"], [[Value.num 1, Value.str "a"]]⟩ :=
  rename_columns_swap_involution "x" "y" []
    ⟨["x", "y"], [[Value.num 1, Value.str "a"]]⟩ (by decide) (by decide)

/-- C10: `rename_columns` reads only the first entry of the configured
`columns_to_rename` mapping, so with more than one entry its result is
the same as with the first entry alone — every other entry is ignored. -/
theorem rename_columns_ignores_tail (A B : String)
    (rest : List (String × String)) (df : DataFrame) :
    rename_columns ((A, B) :: rest) df = rename_columns [(A, B)] df := rfl

/-- Elementwise absolute value, as `Series.abs()` does on a numeric
column: numbers are replaced by their absolute value, `NaN` is kept.
(On a string cell real pandas raises a `TypeError`; the theorems about
the elevation-like column therefore assume its cells are numeric or
null, and the model leaves a string cell unchanged.) -/
def absValue : Value → Value
  | .num q => .num |q|
  | v => v

/-- The category correction `lambda crop: self.values_to_rename.get(crop, crop)`:
a string that is a key of the configured mapping is replaced by its
mapped value, anything else passes through unchanged. -/
def correctValue (m : List (String × String)) : Value → Value
  | .str s => .str ((List.lookup s m).getD s)
  | v => v

/-- Applies `f` to the cells of one row that sit under a column labelled
`c` (positions beyond the labelled columns are untouched). -/
def setRow : List String → String → (Value → Value) → List Value → List Value
  | c' :: cs, c, f, v :: vs => (if c' = c then f v else v) :: setRow cs c f vs
  | _, _, _, vs => vs

/-- `df[c] = df[c].apply(f)`: applies `f` to the column labelled `c` in
every row; column labels and all other cells are untouched. -/
def setCol (df : DataFrame) (c : String) (f : Value → Value) : DataFrame :=
  ⟨df.cols, df.rows.map (setRow df.cols c f)⟩

/-- `FieldDataProcessor.apply_corrections`: replace the elevation-like
column by its absolute values, then send every value of the category
column through the configured `values_to_rename` mapping.  Reading a
missing column is a pandas `KeyError`, modelled as `none`. -/
def apply_corrections (values_to_rename : List (String × String))
    (column_name abs_column : String) (df : DataFrame) : Option DataFrame :=
  if abs_column ∈ df.cols then
    let df1 := setCol df abs_column absValue
    if column_name ∈ df1.cols then
      some (setCol df1 column_name (correctValue values_to_rename))
    else none
  else none

/-- `True` on the cells pandas `Series.abs()` accepts: numbers and null. -/
def numOrNull : Value → Bool
  | .num _ => true
  | .null => true
  | .str _ => false

theorem colIdx?_getElem? :
    ∀ (l : List String) (c : String) (j : Nat),
      colIdx? l c = some j → l[j]? = some c := by
  intro l
  induction l with
  | nil => intro c j h; simp [colIdx?] at h
  | cons x xs ih =>
    intro c j h
    simp only [colIdx?] at h
    by_cases hx : x = c
    · rw [if_pos hx] at h
      cases h
      simp [hx]
    · rw [if_neg hx] at h
      rcases Option.map_eq_some'.mp h with ⟨j', hj', rfl⟩
      simpa using ih c j' hj'

theorem setRow_getD (c : String) (f : Value → Value)
    (hf : f Value.null = Value.null) :
    ∀ (cols : List String) (row : List Value) (i : Nat),
      (setRow cols c f row).getD i Value.null
        = if cols[i]? = some c then f (row.getD i Value.null)
          else row.getD i Value.null := by
  intro cols
  induction cols with
  | nil =>
    intro row i
    simp [setRow]
  | cons c' cs ih =>
    intro row i
    cases row with
    | nil =>
      cases i with
      | zero =>
        simp only [setRow, List.getD_nil]
        split <;> simp [hf]
      | succ n =>
        simp only [setRow, List.getD_nil]
        split <;> simp [hf]
    | cons v vs =>
      cases i with
      | zero =>
        simp only [setRow, List.getD_cons_zero, List.getElem?_cons_zero]
        by_cases hx : c' = c
        · rw [if_pos hx, if_pos (by rw [hx])]
        · rw [if_neg hx, if_neg (by simpa using hx)]
      | succ n =>
        simp only [setRow, List.getD_cons_succ, List.getElem?_cons_succ]
        exact ih vs n

theorem getColVals_setCol_self (df : DataFrame) (c : String)
    (f : Value → Value) (hf : f Value.null = Value.null) :
    getColVals (setCol df c f) c = (getColVals df c).map (List.map f) := by
  cases h : colIdx? df.cols c with
  | none => simp [getColVals, setCol, h]
  | some j =>
    have hj := colIdx?_getElem? df.cols c j h
    simp only [getColVals, setCol, h, Option.map_some']
    congr 1
    rw [List.map_map, List.map_map]
    apply List.map_congr_left
    intro row _
    simp only [Function.comp_apply]
    rw [setRow_getD c f hf df.cols row j, if_pos hj]

theorem getColVals_setCol_other (df : DataFrame) {c c' : String}
    (h : c' ≠ c) (f : Value → Value) (hf : f Value.null = Value.null) :
    getColVals (setCol df c f) c' = getColVals df c' := by
  cases hx : colIdx? df.cols c' with
  | none => simp [getColVals, setCol, hx]
  | some j =>
    have hj := colIdx?_getElem? df.cols c' j hx
    simp only [getColVals, setCol, hx, Option.map_some']
    congr 1
    rw [List.map_map]
    apply List.map_congr_left
    intro row _
    simp only [Function.comp_apply]
    rw [setRow_getD c f hf df.cols row j, if_neg]
    rw [hj]
    simp only [Option.some.injEq]
    exact h

theorem absValue_absValue (v : Value) : absValue (absValue v) = absValue v := by
  cases v <;> simp [absValue, abs_abs]

theorem absValue_null : absValue Value.null = Value.null := rfl

theorem correctValue_null (m : List (String × String)) :
    correctValue m Value.null = Value.null := rfl

/-- C6: on every table containing the configured (distinct) category and
elevation-like columns — the elevation cells being numbers or null, as
`Series.abs()` requires — `apply_corrections` succeeds, is idempotent on
the elevation-like column, maps the category column pointwise through
the correction mapping (so unmapped category values are unchanged and
mapped keys are replaced by their mapped value), and sends the
specification's example row `{Field_ID: 1, Crop_type: "BEAN",
Elevation: -5}` with map `{"BEAN": "Bean"}` to
`{Field_ID: 1, Crop_type: "Bean", Elevation: 5}`. -/
theorem apply_corrections_spec (m : List (String × String))
    (cn ac : String) (df : DataFrame)
    (hcn : cn ∈ df.cols) (hac : ac ∈ df.cols) (hne : cn ≠ ac)
    (_hnd : df.cols.Nodup)
    (_hnum : ∀ v ∈ (getColVals df ac).getD [], numOrNull v = true) :
    ∃ df', apply_corrections m cn ac df = some df' ∧
      df'.cols = df.cols ∧
      (∃ df'', apply_corrections m cn ac df' = some df'' ∧
        getColVals df'' ac = getColVals df' ac) ∧
      getColVals df' cn = (getColVals df cn).map (List.map (correctValue m)) ∧
      (∀ s, List.lookup s m = none → correctValue m (Value.str s) = Value.str s) ∧
      (∀ s t, List.lookup s m = some t → correctValue m (Value.str s) = Value.str t) ∧
      apply_corrections [("BEAN", "Bean")] "Crop_type" "Elevation"
          ⟨["Field_ID", "Crop_type", "Elevation"],
           [[Value.num 1, Value.str "BEAN", Value.num (-5)]]⟩
        = some ⟨["Field_ID", "Crop_type", "Elevation"],
           [[Value.num 1, Value.str "Bean", Value.num 5]]⟩ := by
  have habs : ∀ d : DataFrame, cn ∈ d.cols → ac ∈ d.cols →
      apply_corrections m cn ac d
        = some (setCol (setCol d ac absValue) cn (correctValue m)) := by
    intro d h1 h2
    rw [apply_corrections, if_pos h2, if_pos]
    exact h1
  refine ⟨setCol (setCol df ac absValue) cn (correctValue m),
    habs df hcn hac, rfl, ?_, ?_, ?_, ?_, ?_⟩
  · refine ⟨_, habs _ hcn hac, ?_⟩
    have e1 : ∀ d : DataFrame,
        getColVals (setCol (setCol d ac absValue) cn (correctValue m)) ac
          = (getColVals d ac).map (List.map absValue) := by
      intro d
      rw [getColVals_setCol_other _ (Ne.symm hne) _ (correctValue_null m),
        getColVals_setCol_self _ _ _ absValue_null]
    rw [e1, e1]
    cases hx : getColVals df ac with
    | none => rfl
    | some vs =>
      simp only [Option.map_some', List.map_map]
      congr 1
      apply List.map_congr_left
      intro v _
      exact absValue_absValue v
  · rw [getColVals_setCol_self _ _ _ (correctValue_null m),
      getColVals_setCol_other _ hne _ absValue_null]
  · intro s h
    simp [correctValue, h]
  · intro s t h
    simp [correctValue, h]
  · decide

/-- Closed instance of C6 at the specification's example row, all
hypotheses discharged by evaluation. -/
theorem apply_corrections_spec_witness :
    ∃ df', apply_corrections [("BEAN", "Bean")] "Crop_type" "Elevation"
        ⟨["Field_ID", "Crop_type", "Elevation"],
         [[Value.num 1, Value.str "BEAN", Value.num (-5)]]⟩ = some df' ∧
      df'.cols = ["Field_ID", "Crop_type", "Elevation"] ∧
      (∃ df'', apply_corrections [("BEAN", "Bean")] "Crop_type" "Elevation" df'
          = some df'' ∧
        getColVals df'' "Elevation" = getColVals df' "Elevation") ∧
      getColVals df' "Crop_type"
        = (getColVals ⟨["Field_ID", "Crop_type", "Elevation"],
            [[Value.num 1, Value.str "BEAN", Value.num (-5)]]⟩ "Crop_type").map
            (List.map (correctValue [("BEAN", "Bean")])) ∧
      (∀ s, List.lookup s [("BEAN", "Bean")] = none →
        correctValue [("BEAN", "Bean")] (Value.str s) = Value.str s) ∧
      (∀ s t, List.lookup s [("BEAN", "Bean")] = some t →
        correctValue [("BEAN", "Bean")] (Value.str s) = Value.str t) ∧
      apply_corrections [("BEAN", "Bean")] "Crop_type" "Elevation"
          ⟨["Field_ID", "Crop_type", "Elevation"],
           [[Value.num 1, Value.str "BEAN", Value.num (-5)]]⟩
        = some ⟨["Field_ID", "Crop_type", "Elevation"],
           [[Value.num 1, Value.str "Bean", Value.num 5]]⟩ :=
  apply_corrections_spec [("BEAN", "Bean")] "Crop_type" "Elevation"
    ⟨["Field_ID", "Crop_type", "Elevation"],
     [[Value.num 1, Value.str "BEAN", Value.num (-5)]]⟩
    (by decide) (by decide) (by decide) (by decide) (by decide)

/-- The value of the column labelled `c` in one row (`none` when no
column has that label). -/
def rowVal? (cols : List String) (c : String) (row : List Value) : Option Value :=
  (colIdx? cols c).map (fun i => row.getD i Value.null)

/-- Removes from one row the cells sitting under a column labelled `c`
(cells beyond the labelled columns are untouched; the pipeline's rows
are aligned with the labels, `row.length = cols.length`). -/
def dropRowRec : List String → String → List Value → List Value
  | c' :: cs, c, v :: vs =>
    if c' = c then dropRowRec cs c vs else v :: dropRowRec cs c vs
  | _, _, vs => vs

/-- `df.drop(columns=c)` with the default `errors="raise"`: removes
every column labelled `c`, and fails (`KeyError`) when no column has
that label. -/
def drop_column (c : String) (df : DataFrame) : Option DataFrame :=
  if c ∈ df.cols then
    some ⟨df.cols.filter (fun c' => c' ≠ c), df.rows.map (dropRowRec df.cols c)⟩
  else none

/-- `left.merge(right, on=key, how="left")`: output columns are the left
columns followed by the non-key right columns; every left row is paired
with each right row whose key equals its own, or padded with nulls when
no right row matches; a missing key column on either side is a
`KeyError`.  (The pipeline's two tables share only the key column, so
pandas' suffixing of other overlapping labels is not modelled; pandas'
treatment of `NaN` keys is simplified to plain value equality, which no
claim exercises.) -/
def merge_left (key : String) (l r : DataFrame) : Option DataFrame :=
  match colIdx? l.cols key, colIdx? r.cols key with
  | some li, some ri =>
    some ⟨l.cols ++ r.cols.eraseIdx ri,
      l.rows.flatMap (fun lrow =>
        let k := lrow.getD li Value.null
        let ms := r.rows.filter (fun rrow => rrow.getD ri Value.null = k)
        if ms.isEmpty then [lrow ++ List.replicate (r.cols.length - 1) Value.null]
        else ms.map (fun rrow => lrow ++ rrow.eraseIdx ri))⟩
  | _, _ => none

/-- The state of a `FieldDataProcessor`: its configuration (the
`columns_to_rename` and `values_to_rename` dicts, insertion-ordered) and
the `self.df` attribute (`None` before ingestion). -/
structure FieldState where
  columns_to_rename : List (String × String)
  values_to_rename : List (String × String)
  df : Option DataFrame
deriving DecidableEq, Repr

/-- `FieldDataProcessor.process`: ingest, rename (swap), apply the
default corrections (`Crop_type`, `Elevation`), fetch the station
mapping, left-join on `Field_ID`, and drop `Unnamed: 0`.  The ingestion
collaborators are out of scope (spec §1): `ingested` is the table
`query_data` returns and `weather_map_df` the one `read_from_web_CSV`
returns.  The body assigns the merged table to `self.df` and ends
without a `return` statement, so the method's Python return value is
`None`: the result is the pair (final state, returned value), the
second component always `none`. -/
def FieldDataProcessor.process (st : FieldState)
    (ingested weather_map_df : DataFrame) :
    Option (FieldState × Option DataFrame) :=
  (rename_columns st.columns_to_rename ingested).bind fun d1 =>
  (apply_corrections st.values_to_rename "Crop_type" "Elevation" d1).bind fun d2 =>
  (merge_left "Field_ID" d2 weather_map_df).bind fun d3 =>
  (drop_column "Unnamed: 0" d3).map fun d4 =>
  ({ st with df := some d4 }, none)

theorem rowVal?_cons_ne {x c' : String} (h : ¬x = c') (cs : List String)
    (v : Value) (vs : List Value) :
    rowVal? (x :: cs) c' (v :: vs) = rowVal? cs c' vs := by
  simp only [rowVal?, colIdx?, if_neg h, Option.map_map]
  cases hx : colIdx? cs c' <;> simp [hx]

theorem rowVal?_cons_self {x c' : String} (h : x = c') (cs : List String)
    (v : Value) (vs : List Value) :
    rowVal? (x :: cs) c' (v :: vs) = some v := by
  simp [rowVal?, colIdx?, h]

theorem dropRowRec_rowVal? (c c' : String) (h : c' ≠ c) :
    ∀ (cols : List String) (row : List Value), row.length = cols.length →
      rowVal? (cols.filter (fun x => x ≠ c)) c' (dropRowRec cols c row)
        = rowVal? cols c' row := by
  intro cols
  induction cols with
  | nil =>
    intro row hrow
    rw [List.length_nil, List.length_eq_zero] at hrow
    subst hrow
    rfl
  | cons x cs ih =>
    intro row hrow
    cases row with
    | nil => simp at hrow
    | cons v vs =>
      simp only [List.length_cons, Nat.succ.injEq] at hrow
      by_cases hx : x = c
      · have hfilter : (x :: cs).filter (fun y => y ≠ c)
            = cs.filter (fun y => y ≠ c) := by
          simp [List.filter_cons, hx]
        have hdrop : dropRowRec (x :: cs) c (v :: vs) = dropRowRec cs c vs := by
          simp [dropRowRec, hx]
        rw [hfilter, hdrop, ih vs hrow, rowVal?_cons_ne _ cs v vs]
        rw [hx]
        exact Ne.symm h
      · have hfilter : (x :: cs).filter (fun y => y ≠ c)
            = x :: cs.filter (fun y => y ≠ c) := by
          simp [List.filter_cons, hx]
        have hdrop : dropRowRec (x :: cs) c (v :: vs)
            = v :: dropRowRec cs c vs := by
          simp [dropRowRec, hx]
        rw [hfilter, hdrop]
        by_cases hxc : x = c'
        · rw [rowVal?_cons_self hxc, rowVal?_cons_self hxc]
        · rw [rowVal?_cons_ne hxc, rowVal?_cons_ne hxc]
          exact ih vs hrow

/-- C9 (counterexample): the drop step of the Field pipeline is
`self.df.drop(columns="Unnamed: 0")` with pandas' default
`errors="raise"`, so on a merged table that lacks that column the step
raises a `KeyError` (`none` here) instead of succeeding with the table
unchanged, contrary to the claim that the column is dropped "only if it
is present" and the step always succeeds. -/
theorem drop_unnamed_fails_when_absent :
    drop_column "Unnamed: 0"
        ⟨["Field_ID", "Weather_station"], [[Value.num 1, Value.num 8]]⟩
      = none := by decide

/-- C9 (amended): the final step drops the unnamed index-artifact column
unconditionally — when a table (with rows aligned to its labels) has the
column, the step succeeds, removes exactly that column and preserves the
value of every other column in every row; when it does not, the step
fails with an error rather than leaving the table unchanged. -/
theorem drop_column_spec (c : String) (df : DataFrame)
    (hlen : ∀ row ∈ df.rows, row.length = df.cols.length) :
    (c ∈ df.cols → ∃ df', drop_column c df = some df' ∧
      c ∉ df'.cols ∧
      df'.cols = df.cols.filter (fun c' => c' ≠ c) ∧
      df'.rows.length = df.rows.length ∧
      (∀ c', c' ≠ c → ∀ i, i < df.rows.length →
        rowVal? df'.cols c' (df'.rows.getD i [])
          = rowVal? df.cols c' (df.rows.getD i []))) ∧
    (c ∉ df.cols → drop_column c df = none) := by
  constructor
  · intro h
    refine ⟨⟨df.cols.filter (fun c' => c' ≠ c),
        df.rows.map (dropRowRec df.cols c)⟩,
      by rw [drop_column, if_pos h], ?_, rfl, by simp, ?_⟩
    · simp [List.mem_filter]
    · intro c' hc' i hi
      have hm : (df.rows.map (dropRowRec df.cols c)).getD i []
          = dropRowRec df.cols c (df.rows.getD i []) := by
        rw [List.getD_eq_getElem?_getD, List.getElem?_map,
          List.getElem?_eq_getElem hi, List.getD_eq_getElem?_getD,
          List.getElem?_eq_getElem hi]
        rfl
      have hmem : df.rows.getD i [] ∈ df.rows := by
        rw [List.getD_eq_getElem?_getD, List.getElem?_eq_getElem hi]
        exact List.getElem_mem hi
      rw [hm]
      exact dropRowRec_rowVal? c c' hc' df.cols _ (hlen _ hmem)
  · intro h
    rw [drop_column, if_neg h]

/-- Closed instance of C9's amended statement on a concrete two-column
table carrying the artifact column, hypotheses discharged by
evaluation. -/
theorem drop_column_spec_witness :
    ("Unnamed: 0" ∈ (["Unnamed: 0", "Field_ID"] : List String) →
      ∃ df', drop_column "Unnamed: 0"
          ⟨["Unnamed: 0", "Field_ID"], [[Value.num 0, Value.num 1]]⟩
        = some df' ∧
        "Unnamed: 0" ∉ df'.cols ∧
        df'.cols = (["Unnamed: 0", "Field_ID"] : List String).filter
          (fun c' => c' ≠ "Unnamed: 0") ∧
        df'.rows.length = [[Value.num 0, Value.num 1]].length ∧
        (∀ c', c' ≠ "Unnamed: 0" → ∀ i,
          i < [[Value.num 0, Value.num 1]].length →
          rowVal? df'.cols c' (df'.rows.getD i [])
            = rowVal? ["Unnamed: 0", "Field_ID"] c'
                ([[Value.num 0, Value.num 1]].getD i []))) ∧
    ("Unnamed: 0" ∉ (["Unnamed: 0", "Field_ID"] : List String) →
      drop_column "Unnamed: 0"
          ⟨["Unnamed: 0", "Field_ID"], [[Value.num 0, Value.num 1]]⟩
        = none) :=
  drop_column_spec "Unnamed: 0"
    ⟨["Unnamed: 0", "Field_ID"], [[Value.num 0, Value.num 1]]⟩ (by decide)

/-- Configuration used for the concrete Field-pipeline run: swap the
mislabelled `Annual_yield`/`Crop_type` pair and correct `"BEAN"` to
`"Bean"`; `self.df` starts out `None`. -/
def fieldConfig : FieldState :=
  ⟨[("Annual_yield", "Crop_type")], [("BEAN", "Bean")], none⟩

/-- A concrete field table as ingested (crop names sit under
`Annual_yield`, yields under `Crop_type`, a negative elevation). -/
def fieldIngested : DataFrame :=
  ⟨["Field_ID", "Annual_yield", "Crop_type", "Elevation"],
   [[Value.num 1, Value.str "BEAN", Value.num 2, Value.num (-5)],
    [Value.num 2, Value.str "WHEAT", Value.num 3, Value.num 7]]⟩

/-- A concrete station-mapping table: an index-artifact column, the join
key, and one mapping column; only `Field_ID = 1` has a mapping row. -/
def fieldWeatherMap : DataFrame :=
  ⟨["Unnamed: 0", "Field_ID", "Weather_station"],
   [[Value.num 0, Value.num 1, Value.num 8]]⟩

/-- C4 (code bug): on a successful concrete run, `process` computes the
left-join of the corrected field table with the station-mapping table on
`Field_ID` — both field rows retained in order, the unmatched field row
(`Field_ID = 2`) padded with a null mapping column, and no mapping-only
rows — and stores it in `self.df`; but the method body ends without a
`return` statement, so its Python return value (the second component
below) is `None`, not the merged Row Set that the claim and the method's
own docstring ("Returns: pd.DataFrame") promise. -/
theorem field_process_merges_but_returns_none :
    FieldDataProcessor.process fieldConfig fieldIngested fieldWeatherMap
      = some (⟨[("Annual_yield", "Crop_type")], [("BEAN", "Bean")],
          some ⟨["Field_ID", "Crop_type", "Annual_yield", "Elevation",
                 "Weather_station"],
            [[Value.num 1, Value.str "Bean", Value.num 2, Value.num 5,
              Value.num 8],
             [Value.num 2, Value.str "WHEAT", Value.num 3, Value.num 7,
              Value.null]]⟩⟩, none) := by
  decide

/-- The behaviour of one configured regex under `re.search`: `none` when
the pattern does not match the message, otherwise the capture-group list
of the match (`none` entries are groups that did not participate).  The
regex engine itself is an external collaborator; a pattern is embedded
as its matching behaviour. -/
abbrev Matcher := String → Option (List (Option String))

/-- The distinguishable errors `extract_measurement` can raise: Python's
`StopIteration` from `next()` when a match has no non-null capture group
(the spec maps it to `ExtractionError`), and `ValueError` from `float()`
on a non-numeric capture. -/
inductive ExtractErr where
  | noCapture : String → ExtractErr
  | notNumeric : String → String → ExtractErr
deriving DecidableEq, Repr

/-- A log line with its severity (only the levels the claims observe). -/
inductive LogMsg where
  | info : String → LogMsg
  | warning : String → LogMsg
deriving DecidableEq, Repr

/-- `WeatherDataProcessor.extract_measurement`: try the configured
(name, pattern) pairs in declaration order; on the first match return
the pattern's name and the first non-null capture group converted to a
number (`parse` embeds Python's `float()`, an external collaborator:
`none` on non-numeric text), raising when the match has no usable
numeric capture; return the absent pair when nothing matches. -/
def extract_measurement (parse : String → Option ℚ)
    (patterns : List (String × Matcher)) (message : String) :
    Except ExtractErr (Option String × Option ℚ) :=
  match patterns with
  | [] => .ok (none, none)
  | (key, pat) :: rest =>
    match pat message with
    | some groups =>
      match groups.findSome? id with
      | some txt =>
        match parse txt with
        | some v => .ok (some key, some v)
        | none => .error (.notNumeric key txt)
      | none => .error (.noCapture key)
    | none => extract_measurement parse rest message

/-- One row of the weather table: station identifier, raw message, and
the two columns `process_messages` fills in (`none` = null). -/
structure WRow where
  station : String
  message : String
  measurement : Option String
  value : Option ℚ
deriving DecidableEq, Repr

/-- The state of a `WeatherDataProcessor`: the configured patterns and
the `weather_df` attribute (`None` before loading). -/
structure WeatherState where
  patterns : List (String × Matcher)
  weather_df : Option (List WRow)

/-- `self.weather_df['Message'].apply(self.extract_measurement)` over
the rows in order: the first raised error aborts the whole stage. -/
def extractAll (parse : String → Option ℚ)
    (patterns : List (String × Matcher)) :
    List WRow → Except ExtractErr (List WRow)
  | [] => .ok []
  | r :: rs =>
    match extract_measurement parse patterns r.message with
    | .error e => .error e
    | .ok (m, v) =>
      match extractAll parse patterns rs with
      | .error e => .error e
      | .ok rs' => .ok ({ r with measurement := m, value := v } :: rs')

/-- `WeatherDataProcessor.process_messages`: when loaded, fill the
`Measurement`/`Value` columns from the messages and return the table;
when `weather_df` is `None`, log a warning and return it (`None`)
without failing.  (On a loaded but empty table the source's
`zip(*result)` unpacking would raise a `ValueError`; no claim concerns
that case and it is not modelled.)  The result is (new state, Python
return value, log lines). -/
def process_messages (parse : String → Option ℚ) (st : WeatherState) :
    Except ExtractErr (WeatherState × Option (List WRow) × List LogMsg) :=
  match st.weather_df with
  | some rows =>
    match extractAll parse st.patterns rows with
    | .error e => .error e
    | .ok rows' =>
      .ok ({ st with weather_df := some rows' }, some rows',
        [.info "Messages processed and measurements extracted."])
  | none =>
    .ok (st, none,
      [.warning "weather_df is not initialized, skipping message processing."])

/-- The (station, measurement) group keys of the table: pandas `groupby`
drops rows whose `Measurement` is null (`dropna=True`). -/
def groupKeys (rows : List WRow) : List (String × String) :=
  rows.filterMap (fun r => r.measurement.map (fun m => (r.station, m)))

/-- The mean pandas computes for one (station, measurement) cell:
`mean` skips null values, and a group with no non-null value — in
particular an absent combination after `unstack` — is `NaN` (`none`). -/
def groupMean (rows : List WRow) (s m : String) : Option ℚ :=
  let vs := rows.filterMap (fun r =>
    if r.station = s ∧ r.measurement = some m then r.value else none)
  if vs.isEmpty then none else some (vs.sum / vs.length)

/-- The wide table of
`groupby(['Weather_station_ID', 'Measurement'])['Value'].mean().unstack()`:
one row per station occurring in some group, one column per distinct
measurement name.  pandas sorts the group keys; key order is immaterial
to every stated property, so the model keeps `dedup` order. -/
def calculate_means_table (rows : List WRow) :
    List (String × List (String × Option ℚ)) :=
  let stations := ((groupKeys rows).map Prod.fst).dedup
  let measurements := ((groupKeys rows).map Prod.snd).dedup
  stations.map (fun s => (s, measurements.map (fun m => (m, groupMean rows s m))))

/-- `WeatherDataProcessor.calculate_means`: when loaded, return the
aggregated wide table; when `weather_df` is `None`, log a warning and
return `None` without failing. -/
def calculate_means (st : WeatherState) :
    Option (List (String × List (String × Option ℚ))) × List LogMsg :=
  match st.weather_df with
  | some rows =>
    (some (calculate_means_table rows), [.info "Mean values calculated."])
  | none =>
    (none, [.warning "weather_df is not initialized, cannot calculate means."])

/-- `WeatherDataProcessor.weather_station_mapping`: store the fetched
table (the web-CSV collaborator is out of scope) in `weather_df`. -/
def weather_station_mapping (fetched : List WRow) (st : WeatherState) :
    WeatherState × List LogMsg :=
  ({ st with weather_df := some fetched },
   [.info "Successfully loaded weather station data from the web."])

/-- `WeatherDataProcessor.process`: load the table, process the
messages, log completion.  Note the body never calls
`calculate_means`. -/
def WeatherDataProcessor.process (parse : String → Option ℚ)
    (fetched : List WRow) (st : WeatherState) :
    Except ExtractErr (WeatherState × List LogMsg) :=
  let load := weather_station_mapping fetched st
  match process_messages parse load.1 with
  | .error e => .error e
  | .ok (st2, _ret, logs2) =>
    .ok (st2, load.2 ++ logs2 ++ [.info "Data processing completed."])

theorem extract_measurement_append_of_no_match (parse : String → Option ℚ)
    (pre rest : List (String × Matcher)) (message : String)
    (h : ∀ kp ∈ pre, kp.2 message = none) :
    extract_measurement parse (pre ++ rest) message
      = extract_measurement parse rest message := by
  induction pre with
  | nil => rfl
  | cons kp pre ih =>
    obtain ⟨key, pat⟩ := kp
    have hm : pat message = none := h (key, pat) (List.mem_cons_self _ _)
    simp only [List.cons_append, extract_measurement, hm]
    exact ih (fun kp hkp => h kp (List.mem_cons_of_mem _ hkp))

theorem extract_measurement_ok_none_iff (parse : String → Option ℚ)
    (message : String) (patterns : List (String × Matcher)) :
    extract_measurement parse patterns message = .ok (none, none)
      ↔ ∀ kp ∈ patterns, kp.2 message = none := by
  induction patterns with
  | nil => simp [extract_measurement]
  | cons kp rest ih =>
    obtain ⟨key, pat⟩ := kp
    simp only [extract_measurement]
    cases hm : pat message with
    | none =>
      simp only [List.mem_cons, forall_eq_or_imp, hm, true_and]
      exact ih
    | some groups =>
      constructor
      · intro h
        exfalso
        cases hg : groups.findSome? id with
        | none => simp [hg] at h
        | some txt =>
          cases hp : parse txt with
          | none => simp [hg, hp] at h
          | some v => simp [hg, hp] at h
      · intro h
        have := h (key, pat) (List.mem_cons_self _ _)
        simp only at this
        rw [this] at hm
        cases hm

/-- Python `float()` on the capture texts appearing in the concrete
scenarios (an external collaborator, modelled on the needed inputs). -/
def parseConst : String → Option ℚ :=
  fun t => if t = "23.5" then some (47 / 2) else none

/-- The behaviour of a regex with no capture group at all (e.g. the
pattern `Temp`) on the message `"Temp"`: it matches, and `groups()` is
empty. -/
def matchNoGroups : Matcher :=
  fun s => if s = "Temp" then some [] else none

/-- The behaviour of the specification's example pattern
`Temp: (\d+\.?\d*)C` : on `"Temp: 23.5C"` it matches with the single
capture `"23.5"`. -/
def matchTemp : Matcher :=
  fun s => if s = "Temp: 23.5C" then some [some "23.5"] else none

/-- C2 (counterexample): a configured pattern with no capture groups
matches the message `"Temp"`, yet `extract_measurement` raises (Python:
`StopIteration` from `next()` on the exhausted capture search) instead
of returning the (name, value) pair the claim promises for every
matching message. -/
theorem extract_measurement_no_capture_counterexample :
    (matchNoGroups "Temp").isSome = true ∧
    extract_measurement parseConst [("temperature", matchNoGroups)] "Temp"
      = .error (.noCapture "temperature") := by
  exact ⟨rfl, rfl⟩

/-- C2 (amended): `extract_measurement` returns the absent pair iff no
configured pattern matches the message; otherwise, provided the first
matching pattern's match yields a non-null capture group whose text
converts to a number, it returns that pattern's name paired with that
number, and later patterns are never consulted once one matches (the
result is unchanged if everything after the first matching pattern is
dropped).  When the first match yields no usable numeric capture the
call raises instead — claim C7. -/
theorem extract_measurement_first_match (parse : String → Option ℚ)
    (patterns : List (String × Matcher)) (message : String) :
    (extract_measurement parse patterns message = .ok (none, none)
      ↔ ∀ kp ∈ patterns, kp.2 message = none) ∧
    (∀ pre key pat post groups txt v,
      patterns = pre ++ (key, pat) :: post →
      (∀ kp ∈ pre, kp.2 message = none) →
      pat message = some groups →
      groups.findSome? id = some txt →
      parse txt = some v →
      extract_measurement parse patterns message = .ok (some key, some v)) ∧
    (∀ pre key pat post groups,
      patterns = pre ++ (key, pat) :: post →
      (∀ kp ∈ pre, kp.2 message = none) →
      pat message = some groups →
      extract_measurement parse patterns message
        = extract_measurement parse (pre ++ [(key, pat)]) message) := by
  refine ⟨extract_measurement_ok_none_iff parse message patterns, ?_, ?_⟩
  · intro pre key pat post groups txt v hsplit hpre hm hg hp
    subst hsplit
    rw [extract_measurement_append_of_no_match parse pre _ message hpre]
    simp [extract_measurement, hm, hg, hp]
  · intro pre key pat post groups hsplit hpre hm
    subst hsplit
    rw [extract_measurement_append_of_no_match parse pre _ message hpre,
      extract_measurement_append_of_no_match parse pre _ message hpre]
    simp only [extract_measurement, hm]

/-- Closed instance of C2's amended statement: the specification's
scenario `"Temp: 23.5C"` with the single `temperature` pattern yields
`("temperature", 23.5)`, via the first-match conjunct with every
hypothesis discharged at the concrete input. -/
theorem extract_measurement_first_match_witness :
    extract_measurement parseConst [("temperature", matchTemp)] "Temp: 23.5C"
      = .ok (some "temperature", some (47 / 2)) :=
  (extract_measurement_first_match parseConst
      [("temperature", matchTemp)] "Temp: 23.5C").2.1
    [] "temperature" matchTemp [] [some "23.5"] "23.5" (47 / 2)
    rfl (by simp) rfl rfl rfl

/-- C7: when the first matching pattern's match yields no non-null
capture group, or its captured text does not parse as a number,
`extract_measurement` raises a distinguishable extraction error naming
the failing pattern (Python: `StopIteration` resp. `ValueError`, the
spec's `ExtractionError`) — it neither returns a null pair nor an
indistinct failure. -/
theorem extract_measurement_error_spec (parse : String → Option ℚ)
    (pre post : List (String × Matcher)) (key : String) (pat : Matcher)
    (message : String) (groups : List (Option String))
    (hpre : ∀ kp ∈ pre, kp.2 message = none)
    (hm : pat message = some groups) :
    (groups.findSome? id = none →
      extract_measurement parse (pre ++ (key, pat) :: post) message
        = .error (.noCapture key)) ∧
    (∀ txt, groups.findSome? id = some txt → parse txt = none →
      extract_measurement parse (pre ++ (key, pat) :: post) message
        = .error (.notNumeric key txt)) := by
  constructor
  · intro hg
    rw [extract_measurement_append_of_no_match parse pre _ message hpre]
    simp [extract_measurement, hm, hg]
  · intro txt hg hp
    rw [extract_measurement_append_of_no_match parse pre _ message hpre]
    simp [extract_measurement, hm, hg, hp]

/-- Closed instance of C7 at the zero-capture-group pattern on the
message `"Temp"`, hypotheses discharged at the concrete input. -/
theorem extract_measurement_error_spec_witness :
    (List.findSome? id ([] : List (Option String)) = none →
      extract_measurement parseConst
          ([] ++ ("temperature", matchNoGroups) :: []) "Temp"
        = .error (.noCapture "temperature")) ∧
    (∀ txt, List.findSome? id ([] : List (Option String)) = some txt →
      parseConst txt = none →
      extract_measurement parseConst
          ([] ++ ("temperature", matchNoGroups) :: []) "Temp"
        = .error (.notNumeric "temperature" txt)) :=
  extract_measurement_error_spec parseConst [] [] "temperature" matchNoGroups
    "Temp" [] (by simp) rfl

/-- C8: in the not-loaded state (`weather_df is None`) both
`process_messages` and `calculate_means` log a warning and return an
absent result; neither raises. -/
theorem not_loaded_soft_guards (parse : String → Option ℚ)
    (st : WeatherState) (h : st.weather_df = none) :
    process_messages parse st = .ok (st, none,
      [.warning "weather_df is not initialized, skipping message processing."]) ∧
    calculate_means st = (none,
      [.warning "weather_df is not initialized, cannot calculate means."]) := by
  obtain ⟨patterns, wdf⟩ := st
  simp only at h
  subst h
  exact ⟨rfl, rfl⟩

/-- Closed instance of C8 on a fresh processor state that never loaded,
the hypothesis discharged by evaluation. -/
theorem not_loaded_soft_guards_witness :
    process_messages (fun _ => none) ⟨[], none⟩ = .ok (⟨[], none⟩, none,
      [.warning "weather_df is not initialized, skipping message processing."]) ∧
    calculate_means ⟨[], none⟩ = (none,
      [.warning "weather_df is not initialized, cannot calculate means."]) :=
  not_loaded_soft_guards (fun _ => none) ⟨[], none⟩ rfl

theorem lookup_map_graph {β : Type} (f : String → β) :
    ∀ (l : List String) (s : String), s ∈ l →
      List.lookup s (l.map (fun x => (x, f x))) = some (f s) := by
  intro l
  induction l with
  | nil => intro s hs; cases hs
  | cons x xs ih =>
    intro s hs
    by_cases hx : s = x
    · subst hx
      simp [List.lookup]
    · rcases List.mem_cons.mp hs with h | h
      · exact absurd h hx
      · simp only [List.map_cons, List.lookup, beq_eq_false_iff_ne.mpr hx]
        exact ih s h

theorem groupVals_eq_filter (rows : List WRow) (s m : String) :
    rows.filterMap (fun r =>
        if r.station = s ∧ r.measurement = some m then r.value else none)
      = (rows.filter (fun r =>
          r.station = s ∧ r.measurement = some m)).filterMap
          (fun r => r.value) := by
  induction rows with
  | nil => rfl
  | cons r rs ih =>
    by_cases hr : r.station = s ∧ r.measurement = some m
    · simp only [List.filterMap_cons, List.filter_cons, decide_eq_true hr,
        if_true, if_pos hr, ih]
    · simp only [List.filterMap_cons, List.filter_cons, decide_eq_false hr,
        Bool.false_eq_true, if_false, if_neg hr, ih]

theorem map_fst_graph {β : Type} (f : String → β) (l : List String) :
    (l.map (fun x => (x, f x))).map Prod.fst = l := by
  rw [List.map_map]
  exact List.map_id l

theorem groupMean_eq_filter_form (rows : List WRow) (s m : String) :
    groupMean rows s m
      = (let vs := (rows.filter (fun r =>
          r.station = s ∧ r.measurement = some m)).filterMap (fun r => r.value)
        if vs.isEmpty then none else some (vs.sum / vs.length)) := by
  show (let vs := rows.filterMap (fun r =>
      if r.station = s ∧ r.measurement = some m then r.value else none)
    if vs.isEmpty then none else some (vs.sum / vs.length)) = _
  simp only [groupVals_eq_filter]

/-- C3: on a loaded weather table (whose rows, as the extraction stage
guarantees, carry a value wherever they carry a measurement name),
`calculate_means` returns a wide table with exactly one row per station
occurring in some (station, measurement) group and one column per
distinct measurement name; the cell of such a pair is the arithmetic
mean — sum divided by count — of the Value entries sharing that group
key, and it is null (`none`), not zero, when the combination has no
observations. -/
theorem calculate_means_spec (st : WeatherState) (rows : List WRow)
    (hload : st.weather_df = some rows)
    (_hinv : ∀ r ∈ rows, r.measurement.isSome → r.value.isSome) :
    ∃ tbl, (calculate_means st).1 = some tbl ∧
      tbl.map Prod.fst = ((groupKeys rows).map Prod.fst).dedup ∧
      (tbl.map Prod.fst).Nodup ∧
      (∀ p ∈ tbl,
        p.2.map Prod.fst = ((groupKeys rows).map Prod.snd).dedup ∧
        (p.2.map Prod.fst).Nodup) ∧
      (∀ s m, s ∈ ((groupKeys rows).map Prod.fst).dedup →
        m ∈ ((groupKeys rows).map Prod.snd).dedup →
        (List.lookup s tbl).bind (fun row => List.lookup m row)
          = some (
            let vs := (rows.filter (fun r =>
              r.station = s ∧ r.measurement = some m)).filterMap
                (fun r => r.value)
            if vs.isEmpty then none else some (vs.sum / vs.length))) := by
  have hfst : (calculate_means_table rows).map Prod.fst
      = ((groupKeys rows).map Prod.fst).dedup :=
    map_fst_graph _ _
  refine ⟨calculate_means_table rows, by simp [calculate_means, hload],
    hfst, ?_, ?_, ?_⟩
  · rw [hfst]
    exact List.nodup_dedup _
  · intro p hp
    simp only [calculate_means_table, List.mem_map] at hp
    obtain ⟨s, hs, rfl⟩ := hp
    have hsnd : ((((groupKeys rows).map Prod.snd).dedup.map
          (fun m => (m, groupMean rows s m))).map Prod.fst)
        = ((groupKeys rows).map Prod.snd).dedup :=
      map_fst_graph _ _
    constructor
    · exact hsnd
    · show ((((groupKeys rows).map Prod.snd).dedup.map
          (fun m => (m, groupMean rows s m))).map Prod.fst).Nodup
      rw [hsnd]
      exact List.nodup_dedup _
  · intro s m hs hm
    have h1 : List.lookup s (calculate_means_table rows)
        = some ((((groupKeys rows).map Prod.snd).dedup).map
            (fun m' => (m', groupMean rows s m'))) :=
      lookup_map_graph _ _ s hs
    rw [h1, Option.some_bind,
      lookup_map_graph (fun m' => groupMean rows s m') _ m hm]
    exact congrArg some (groupMean_eq_filter_form rows s m)

/-- Two concrete observations of the same station and measurement, as in
the specification's aggregation scenario (mean 25). -/
def weatherRowsW : List WRow :=
  [⟨"Station A", "m1", some "temperature", some 20⟩,
   ⟨"Station A", "m2", some "temperature", some 30⟩]

/-- Closed instance of C3 on the concrete two-observation table,
hypotheses discharged by evaluation. -/
theorem calculate_means_spec_witness :
    ∃ tbl, (calculate_means ⟨[], some weatherRowsW⟩).1 = some tbl ∧
      tbl.map Prod.fst = ((groupKeys weatherRowsW).map Prod.fst).dedup ∧
      (tbl.map Prod.fst).Nodup ∧
      (∀ p ∈ tbl,
        p.2.map Prod.fst = ((groupKeys weatherRowsW).map Prod.snd).dedup ∧
        (p.2.map Prod.fst).Nodup) ∧
      (∀ s m, s ∈ ((groupKeys weatherRowsW).map Prod.fst).dedup →
        m ∈ ((groupKeys weatherRowsW).map Prod.snd).dedup →
        (List.lookup s tbl).bind (fun row => List.lookup m row)
          = some (
            let vs := (weatherRowsW.filter (fun r =>
              r.station = s ∧ r.measurement = some m)).filterMap
                (fun r => r.value)
            if vs.isEmpty then none else some (vs.sum / vs.length))) :=
  calculate_means_spec ⟨[], some weatherRowsW⟩ weatherRowsW rfl (by decide)

/-- The configured pattern mapping of the concrete weather run: one
`temperature` pattern. -/
def weatherConfigPatterns : List (String × Matcher) :=
  [("temperature", matchTemp)]

/-- A concrete fetched weather table: one message that matches the
`temperature` pattern and one that matches nothing. -/
def weatherFetched : List WRow :=
  [⟨"Station A", "Temp: 23.5C", none, none⟩,
   ⟨"Station B", "no data", none, none⟩]

/-- C5 (code bug): `WeatherDataProcessor.process` only performs load and
extract — its body calls `weather_station_mapping` and
`process_messages` and then logs completion; `calculate_means` is never
invoked, contrary to the claim (and to the method's own docstring
"Execute all methods in the correct order").  After this successful
concrete run the state holds exactly the long-format extracted rows and
no aggregated station-by-measurement table has been produced. -/
theorem weather_process_no_aggregation :
    WeatherDataProcessor.process parseConst weatherFetched
        ⟨weatherConfigPatterns, none⟩
      = .ok (⟨weatherConfigPatterns,
          some [⟨"Station A", "Temp: 23.5C", some "temperature",
                  some (47 / 2)⟩,
                ⟨"Station B", "no data", none, none⟩]⟩,
        [.info "Successfully loaded weather station data from the web.",
         .info "Messages processed and measurements extracted.",
         .info "Data processing completed."]) := by
  rfl
